import Mathlib

/-!
Shallow embedding of the vy-web-note single-page note editor glue code:
the IndexedDB storage layer (src/lib/storage.ts), the debounced autosave
hook (src/hooks/useAutosave.tsx), the image paste pipeline
(src/lib/custom-image.ts) and the recursive image-URL resolution pass
(src/app/page.tsx).

JS values are modelled by an inductive JSON type; the two IndexedDB object
stores (documents, images) by association lists keyed by id; timers by
explicitly scheduled absolute times; and the ambient browser primitives
(the clock Date.now, Math.random, URL.createObjectURL) by explicit
parameters of the operations that call them.
-/

/-- A JSON value as manipulated by the JS glue code (TipTap document JSON). -/
inductive JsValue where
  | null
  | bool (b : Bool)
  | num (n : Int)
  | str (s : String)
  | arr (elems : List JsValue)
  | obj (fields : List (String × JsValue))

/-- JS truthiness of a JSON value: null, false, 0 and "" are falsy,
arrays and objects are always truthy. -/
def truthy : JsValue → Bool
  | .null => false
  | .bool b => b
  | .num n => n != 0
  | .str s => s != ""
  | .arr _ => true
  | .obj _ => true

/-- JS property read `c[k]` on a JSON value: a key lookup on an object,
undefined (here: none) on every other value. -/
def objGet (c : JsValue) (k : String) : Option JsValue :=
  match c with
  | .obj fields => (fields.find? (fun e => e.1 == k)).map (fun e => e.2)
  | _ => none

/-- JS optional-chained read `c[k₁]?.[k₂]`. -/
def objGet2 (c : JsValue) (k₁ k₂ : String) : Option JsValue :=
  match objGet c k₁ with
  | some v => objGet v k₂
  | none => none

/-- Update the binding of k in an association list of object fields the way
a JS object spread does: replace in place if the key is present, append
otherwise. -/
def setField (fields : List (String × JsValue)) (k : String) (v : JsValue) :
    List (String × JsValue) :=
  if fields.any (fun e => e.1 == k) then
    fields.map (fun e => if e.1 == k then (k, v) else e)
  else
    fields ++ [(k, v)]

/-- The JS expression `{...c, k: v}`. On a non-object the spread contributes
no enumerable fields (for null, undefined, booleans and numbers), leaving
just the new binding; the code only ever spreads objects. -/
def jsSpreadSet (c : JsValue) (k : String) (v : JsValue) : JsValue :=
  match c with
  | .obj fields => .obj (setField fields k v)
  | _ => .obj [(k, v)]

/-- An opaque binary blob (a browser Blob), modelled by its byte list. -/
structure Blob where
  data : List Nat
deriving DecidableEq

/-- A record of the documents object store (storage.ts, NotesDB). -/
structure DocRecord where
  id : String
  content : JsValue
  updatedAt : Nat

/-- A record of the images object store (storage.ts, NotesDB). -/
structure ImageRecord where
  id : String
  blob : Blob
  createdAt : Nat
deriving DecidableEq

/-- The notes-app-db database: the documents and images object stores,
both keyed by the record id (keyPath id). -/
structure StorageState where
  documents : List (String × DocRecord)
  images : List (String × ImageRecord)

/-- A key lookup in an object store (idb db.get). -/
def storeGet {α : Type} (store : List (String × α)) (k : String) : Option α :=
  (store.find? (fun e => e.1 == k)).map (fun e => e.2)

/-- An upsert into an object store (idb db.put): the new record replaces any
record with the same key. -/
def storePut {α : Type} (store : List (String × α)) (k : String) (v : α) :
    List (String × α) :=
  (k, v) :: store.filter (fun e => !(e.1 == k))

/-- A freshly created database: both stores empty. -/
def initialStorage : StorageState := ⟨[], []⟩

/-- The single fixed document key (storage.ts, DOCUMENT_ID). -/
def DOCUMENT_ID : String := "main-document"

/-- saveDocument (storage.ts 55-67): put the record
`{id: DOCUMENT_ID, content: docJson, updatedAt: Date.now()}` into the
documents store. -/
def saveDocument (st : StorageState) (docJson : JsValue) (now : Nat) :
    StorageState :=
  { st with documents := storePut st.documents DOCUMENT_ID ⟨DOCUMENT_ID, docJson, now⟩ }

/-- loadDocument (storage.ts 73-82): get the record under the fixed key and
return `doc?.content || null`; a missing record and a falsy content both
come out as null. -/
def loadDocument (st : StorageState) : JsValue :=
  match storeGet st.documents DOCUMENT_ID with
  | none => .null
  | some doc => if truthy doc.content then doc.content else .null

/-- The image id generated by saveImage:
`img-<Date.now()>-<Math.random().toString(36).substr(2,9)>`. -/
def genImageId (now : Nat) (rand : String) : String :=
  "img-" ++ toString now ++ "-" ++ rand

/-- saveImage (storage.ts 89-105): generate the id, put
`{id: imageId, blob, createdAt: Date.now()}` into the images store and
return the id. Date.now() is called twice in the source (once for the id,
once for createdAt), hence the two time parameters; the random suffix is a
parameter as well. -/
def saveImage (st : StorageState) (blob : Blob) (now₁ now₂ : Nat)
    (rand : String) : StorageState × String :=
  let imageId := genImageId now₁ rand
  ({ st with images := storePut st.images imageId ⟨imageId, blob, now₂⟩ }, imageId)

/-- loadImage (storage.ts 112-128): get the image record; null when absent,
otherwise URL.createObjectURL of the stored blob. The browser URL allocator
is the parameter mkUrl. -/
def loadImage (mkUrl : Blob → String) (st : StorageState) (imageId : String) :
    Option String :=
  match storeGet st.images imageId with
  | none => none
  | some image => some (mkUrl image.blob)

/-- getAllImages (storage.ts 133-142): the keys of the images store. -/
def getAllImages (st : StorageState) : List String :=
  st.images.map (fun e => e.1)

/-- deleteImage (storage.ts 148-156): delete the record with the given key
from the images store. -/
def deleteImage (st : StorageState) (imageId : String) : StorageState :=
  { st with images := st.images.filter (fun e => !(e.1 == imageId)) }

/-- An IndexedDB failure, as surfaced by a rejected idb promise. -/
abbrev DBError := String

/-- loadDocument with its try/catch: a storage failure is caught, logged and
turned into the fallback null; otherwise the pure read runs. -/
def loadDocumentE (st : StorageState) (fail : Option DBError) :
    Except DBError JsValue :=
  match fail with
  | some _ => .ok .null
  | none => .ok (loadDocument st)

/-- loadImage with its try/catch: a storage failure is caught, logged and
turned into the fallback null. -/
def loadImageE (mkUrl : Blob → String) (st : StorageState) (imageId : String)
    (fail : Option DBError) : Except DBError (Option String) :=
  match fail with
  | some _ => .ok none
  | none => .ok (loadImage mkUrl st imageId)

/-- getAllImages with its try/catch: a storage failure is caught, logged and
turned into the fallback empty list. -/
def getAllImagesE (st : StorageState) (fail : Option DBError) :
    Except DBError (List String) :=
  match fail with
  | some _ => .ok []
  | none => .ok (getAllImages st)

/-- saveDocument with its try/catch: a storage failure is logged and
rethrown to the caller. -/
def saveDocumentE (st : StorageState) (docJson : JsValue) (now : Nat)
    (fail : Option DBError) : Except DBError StorageState :=
  match fail with
  | some e => .error e
  | none => .ok (saveDocument st docJson now)

/-- saveImage with its try/catch: a storage failure is logged and rethrown. -/
def saveImageE (st : StorageState) (blob : Blob) (now₁ now₂ : Nat)
    (rand : String) (fail : Option DBError) :
    Except DBError (StorageState × String) :=
  match fail with
  | some e => .error e
  | none => .ok (saveImage st blob now₁ now₂ rand)

/-- deleteImage with its try/catch: a storage failure is logged and
rethrown. -/
def deleteImageE (st : StorageState) (imageId : String)
    (fail : Option DBError) : Except DBError StorageState :=
  match fail with
  | some e => .error e
  | none => .ok (deleteImage st imageId)

lemma storeGet_storePut_self {α : Type} (store : List (String × α))
    (k : String) (v : α) : storeGet (storePut store k v) k = some v := by
  simp [storeGet, storePut, List.find?]

lemma storeGet_storePut_ne {α : Type} (store : List (String × α))
    (k k' : String) (v : α) (h : k' ≠ k) :
    storeGet (storePut store k v) k' = storeGet store k' := by
  have hk : (k == k') = false := by
    simp [beq_iff_eq]
    exact fun he => h he.symm
  induction store with
  | nil => simp [storeGet, storePut, List.find?, hk]
  | cons e t ih =>
    by_cases he : e.1 == k
    · have he' : (e.1 == k') = false := by
        have h1 : e.1 = k := by simpa [beq_iff_eq] using he
        simp [beq_iff_eq, h1]
        exact fun hc => h hc.symm
      simp [storeGet, storePut, List.find?, hk, he, he'] at ih ⊢
      simpa [storeGet, storePut, List.find?, hk] using ih
    · have he2 : (e.1 == k) = false := by simpa using he
      by_cases hg : e.1 == k'
      · simp [storeGet, storePut, List.find?, hk, he2, hg]
      · have hg2 : (e.1 == k') = false := by simpa using hg
        simp [storeGet, storePut, List.find?, hk, he2, hg2] at ih ⊢
        simpa [storeGet, storePut, List.find?, hk] using ih

/-- C3 counterexample: the round trip fails on a falsy document JSON.
Saving the document JSON false under the fixed key and loading it back
yields null, not false, because loadDocument computes doc?.content || null. -/
theorem saveDocument_roundtrip_counterexample :
    loadDocument (saveDocument initialStorage (JsValue.bool false) 0) =
      JsValue.null ∧
    JsValue.null ≠ JsValue.bool false :=
  ⟨rfl, fun h => JsValue.noConfusion h⟩

/-- C3 (amended): for every truthy document JSON d (in particular every JSON
object, hence every editor document), saveDocument writes d under the single
fixed key "main-document", a subsequent successful loadDocument returns
exactly d, and no other key of the documents store is touched; for falsy d
the record is written but loadDocument returns null. -/
theorem saveDocument_loadDocument_roundtrip (st : StorageState) (d : JsValue)
    (now : Nat) (hd : truthy d = true) :
    storeGet (saveDocument st d now).documents DOCUMENT_ID =
      some ⟨DOCUMENT_ID, d, now⟩ ∧
    loadDocument (saveDocument st d now) = d ∧
    (∀ k, k ≠ DOCUMENT_ID →
      storeGet (saveDocument st d now).documents k = storeGet st.documents k) := by
  refine ⟨?_, ?_, ?_⟩
  · simp [saveDocument, storeGet_storePut_self]
  · simp [loadDocument, saveDocument, storeGet_storePut_self, hd]
  · intro k hk
    simp [saveDocument, storeGet_storePut_ne _ _ _ _ hk]

/-- C3 witness: the round trip at a concrete object document. -/
theorem saveDocument_loadDocument_roundtrip_witness :
    storeGet (saveDocument initialStorage
        (JsValue.obj [("type", JsValue.str "doc")]) 7).documents DOCUMENT_ID =
      some ⟨DOCUMENT_ID, JsValue.obj [("type", JsValue.str "doc")], 7⟩ ∧
    loadDocument (saveDocument initialStorage
        (JsValue.obj [("type", JsValue.str "doc")]) 7) =
      JsValue.obj [("type", JsValue.str "doc")] ∧
    (∀ k, k ≠ DOCUMENT_ID →
      storeGet (saveDocument initialStorage
          (JsValue.obj [("type", JsValue.str "doc")]) 7).documents k =
        storeGet initialStorage.documents k) :=
  saveDocument_loadDocument_roundtrip initialStorage
    (JsValue.obj [("type", JsValue.str "doc")]) 7 rfl

/-- C9: loadDocument returns null not only when no record exists under the
fixed key but whenever the stored content is falsy (null, empty string, 0 or
false), because the result is computed as doc?.content || null; the result
on a saved falsy document is the same as on a store with no document at all,
so a caller cannot distinguish the two. -/
theorem loadDocument_falsy_indistinguishable (st : StorageState) (v : JsValue)
    (now : Nat) (hf : truthy v = false) :
    loadDocument (saveDocument st v now) = JsValue.null ∧
    loadDocument (saveDocument st v now) =
      loadDocument { documents := [], images := st.images } ∧
    (truthy JsValue.null = false ∧ truthy (JsValue.str "") = false ∧
      truthy (JsValue.num 0) = false ∧ truthy (JsValue.bool false) = false) := by
  refine ⟨?_, ?_, rfl, rfl, rfl, rfl⟩
  · simp [loadDocument, saveDocument, storeGet_storePut_self, hf]
  · have h1 : loadDocument (saveDocument st v now) = JsValue.null := by
      simp [loadDocument, saveDocument, storeGet_storePut_self, hf]
    have h2 : loadDocument { documents := [], images := st.images } =
        JsValue.null := by
      simp [loadDocument, storeGet]
    rw [h1, h2]

/-- C9 witness: saving the empty string as the document and loading yields
null, exactly as for an absent document. -/
theorem loadDocument_falsy_indistinguishable_witness :
    loadDocument (saveDocument initialStorage (JsValue.str "") 3) =
      JsValue.null ∧
    loadDocument (saveDocument initialStorage (JsValue.str "") 3) =
      loadDocument { documents := [], images := initialStorage.images } ∧
    (truthy JsValue.null = false ∧ truthy (JsValue.str "") = false ∧
      truthy (JsValue.num 0) = false ∧ truthy (JsValue.bool false) = false) :=
  loadDocument_falsy_indistinguishable initialStorage (JsValue.str "") 3 rfl

/-- C10: the storage error surface is asymmetric: every read (loadDocument,
loadImage, getAllImages) catches a storage failure and returns its fallback
(null or the empty list) instead of throwing, and reads never surface an
error at all, while every write (saveDocument, saveImage, deleteImage)
rethrows the failure to the caller. -/
theorem storage_error_surface (mkUrl : Blob → String) (st : StorageState)
    (d : JsValue) (b : Blob) (imageId rand : String) (now now₁ now₂ : Nat)
    (e : DBError) :
    loadDocumentE st (some e) = .ok JsValue.null ∧
    loadImageE mkUrl st imageId (some e) = .ok none ∧
    getAllImagesE st (some e) = .ok [] ∧
    saveDocumentE st d now (some e) = .error e ∧
    saveImageE st b now₁ now₂ rand (some e) = .error e ∧
    deleteImageE st imageId (some e) = .error e ∧
    (∀ fail, (∃ v, loadDocumentE st fail = .ok v) ∧
      (∃ v, loadImageE mkUrl st imageId fail = .ok v) ∧
      (∃ v, getAllImagesE st fail = .ok v)) := by
  refine ⟨rfl, rfl, rfl, rfl, rfl, rfl, ?_⟩
  intro fail
  cases fail <;> exact ⟨⟨_, rfl⟩, ⟨_, rfl⟩, ⟨_, rfl⟩⟩

/-- C6: an image record stored by saveImage consists of the generated
identifier of the form img-<timestamp>-<random>, the opaque blob and a
creation timestamp, written to the images store while the documents store
is untouched; saveImage returns that identifier, and loadImage applied to
it returns a non-null object URL created from the stored blob b. -/
theorem saveImage_record_roundtrip (mkUrl : Blob → String) (st : StorageState)
    (b : Blob) (now₁ now₂ : Nat) (rand : String) :
    (saveImage st b now₁ now₂ rand).2 =
      "img-" ++ toString now₁ ++ "-" ++ rand ∧
    storeGet (saveImage st b now₁ now₂ rand).1.images
        (saveImage st b now₁ now₂ rand).2 =
      some ⟨genImageId now₁ rand, b, now₂⟩ ∧
    (saveImage st b now₁ now₂ rand).1.documents = st.documents ∧
    loadImage mkUrl (saveImage st b now₁ now₂ rand).1
        (saveImage st b now₁ now₂ rand).2 = some (mkUrl b) := by
  refine ⟨rfl, ?_, rfl, ?_⟩
  · simp [saveImage, storeGet_storePut_self]
  · simp [loadImage, saveImage, storeGet_storePut_self]

/-- The AutosaveStatus record (useAutosave.tsx 5-9). At runtime the status
field is a plain JS string; lastSaved is a Date, modelled as a millisecond
timestamp; the countdown is an integer (remainingSeconds can momentarily
reach a negative value when delay is 0). -/
structure AutosaveStatus where
  status : String
  lastSaved : Option Nat
  countdown : Int
deriving DecidableEq

/-- The mutable state of the useAutosave hook: the published status, the
pending save timeout (recorded as the absolute time it is scheduled to
fire, none when cancelled), the countdown interval (recorded as the
remainingSeconds captured by its closure, none when no interval is active)
and pendingChangesRef. -/
structure HookState where
  status : AutosaveStatus
  timeoutAt : Option Nat
  intervalRem : Option Int
  pendingChanges : Bool
deriving DecidableEq

/-- The initial hook state (useAutosave.tsx 17-25). -/
def initHookState : HookState :=
  { status := { status := "idle", lastSaved := none, countdown := 0 },
    timeoutAt := none, intervalRem := none, pendingChanges := false }

/-- Math.ceil(delay / 1000) for a natural millisecond delay. -/
def cdInit (delay : Nat) : Int := ((delay + 999) / 1000 : Nat)

/-- clearTimers (useAutosave.tsx 27-36): cancel the pending save timeout
and the countdown interval. -/
def clearTimers (s : HookState) : HookState :=
  { s with timeoutAt := none, intervalRem := none }

/-- The first half of save (useAutosave.tsx 38-40): clearTimers, then set
status saving with countdown 0, before awaiting onSave. -/
def saveBegin (s : HookState) : HookState :=
  let s₁ := clearTimers s
  { s₁ with status := { s₁.status with status := "saving", countdown := 0 } }

/-- The second half of save (useAutosave.tsx 42-54): when onSave fulfils,
status saved with lastSaved the completion time and pendingChangesRef
false; when onSave rejects, the error is caught and logged and the status
returns to idle with countdown 0, everything else untouched. -/
def saveEnd (ok : Bool) (now : Nat) (s : HookState) : HookState :=
  if ok then
    { s with
      status := { status := "saved", lastSaved := some now, countdown := 0 },
      pendingChanges := false }
  else
    { s with status := { s.status with status := "idle", countdown := 0 } }

/-- save (useAutosave.tsx 38-55): both halves; ok tells whether the onSave
promise fulfilled, now is the clock at completion. -/
def save (ok : Bool) (now : Nat) (s : HookState) : HookState :=
  saveEnd ok now (saveBegin s)

/-- triggerAutosave (useAutosave.tsx 57-87): clearTimers first, mark pending
changes, set status typing with the countdown, start the countdown interval
and schedule the save to fire exactly one delay after the call time now. -/
def triggerAutosave (delay now : Nat) (s : HookState) : HookState :=
  let s₁ := clearTimers s
  let s₂ := { s₁ with pendingChanges := true }
  let s₃ := { s₂ with
    status := { s₂.status with status := "typing", countdown := cdInit delay } }
  let s₄ := { s₃ with intervalRem := some (cdInit delay) }
  { s₄ with timeoutAt := some (now + delay) }

/-- One firing of the countdown interval (useAutosave.tsx 70-81): decrement
remainingSeconds, publish it as the countdown, and clear the interval once
it reaches zero. -/
def intervalTick (s : HookState) : HookState :=
  match s.intervalRem with
  | none => s
  | some r =>
    let s₁ := { s with status := { s.status with countdown := r - 1 } }
    if r - 1 ≤ 0 then { s₁ with intervalRem := none }
    else { s₁ with intervalRem := some (r - 1) }

/-- A timed event of a hook run: an edit (a triggerAutosave call), the
firing of the scheduled save timeout (with the outcome of onSave), or a
firing of the countdown interval. -/
inductive TEvent where
  | edit (t : Nat)
  | fire (t : Nat) (ok : Bool)
  | tick (t : Nat)
deriving DecidableEq

/-- The time of an event. -/
def eTime : TEvent → Nat
  | .edit t => t
  | .fire t _ => t
  | .tick t => t

/-- One event step of the hook: edits and interval ticks always apply; the
save timeout can fire at time t only when a timeout is scheduled for t. -/
def stepEv (delay : Nat) (s : HookState) : TEvent → Option HookState
  | .edit t => some (triggerAutosave delay t s)
  | .fire t ok => if s.timeoutAt = some t then some (save ok t s) else none
  | .tick _ => some (intervalTick s)

/-- Run a list of events from a state; none when some fire is invalid. -/
def runEvents (delay : Nat) (s : HookState) : List TEvent → Option HookState
  | [] => some s
  | e :: es =>
    match stepEv delay s e with
    | some s' => runEvents delay s' es
    | none => none

/-- The events of a run listed in chronological order. -/
def Chrono (evs : List TEvent) : Prop :=
  List.Pairwise (fun a b => eTime a ≤ eTime b) evs

instance (evs : List TEvent) : Decidable (Chrono evs) :=
  List.instDecidablePairwise evs

/-- The scheduling invariant of a run: whenever a save timeout is scheduled
for time T, the last edit processed so far happened exactly one delay
before T and no later edit has been processed. -/
def GoodSched (delay : Nat) (done : List TEvent) (s : HookState) : Prop :=
  ∀ T, s.timeoutAt = some T →
    ∃ t₀, t₀ + delay = T ∧ TEvent.edit t₀ ∈ done ∧
      ∀ t', TEvent.edit t' ∈ done → t' ≤ t₀

lemma save_timeoutAt (ok : Bool) (now : Nat) (s : HookState) :
    (save ok now s).timeoutAt = none := by
  cases ok <;> rfl

lemma intervalTick_timeoutAt (s : HookState) :
    (intervalTick s).timeoutAt = s.timeoutAt := by
  unfold intervalTick
  cases s.intervalRem with
  | none => rfl
  | some r => by_cases hr : r - 1 ≤ 0 <;> simp [hr]

lemma intervalTick_status (s : HookState) :
    (intervalTick s).status.status = s.status.status := by
  unfold intervalTick
  cases s.intervalRem with
  | none => rfl
  | some r => by_cases hr : r - 1 ≤ 0 <;> simp [hr]

lemma runEvents_quiet (delay : Nat) :
    ∀ (p q done : List TEvent) (s : HookState) (T : Nat) (ok : Bool),
      Chrono (done ++ (p ++ TEvent.fire T ok :: q)) →
      GoodSched delay done s →
      (runEvents delay s (p ++ TEvent.fire T ok :: q)).isSome →
      ∃ t₀, t₀ + delay = T ∧ TEvent.edit t₀ ∈ done ++ p ∧
        ∀ t', TEvent.edit t' ∈ done ++ p → t' ≤ t₀ := by
  intro p
  induction p with
  | nil =>
    intro q done s T ok hch hg hrun
    by_cases hto : s.timeoutAt = some T
    · obtain ⟨t₀, h1, h2, h3⟩ := hg T hto
      exact ⟨t₀, h1, by simpa using h2, by simpa using h3⟩
    · simp [runEvents, stepEv, hto] at hrun
  | cons e p' ih =>
    intro q done s T ok hch hg hrun
    have hch' : Chrono ((done ++ [e]) ++ (p' ++ TEvent.fire T ok :: q)) := by
      have h : done ++ (e :: p' ++ TEvent.fire T ok :: q) =
          (done ++ [e]) ++ (p' ++ TEvent.fire T ok :: q) := by
        simp
      rw [Chrono] at hch ⊢
      simpa [h] using hch
    have hcross : ∀ a ∈ done, eTime a ≤ eTime e := by
      rw [Chrono, List.pairwise_append] at hch
      intro a ha
      exact hch.2.2 a ha e (by simp)
    have hfin : ∀ t₀, (t₀ + delay = T ∧
        TEvent.edit t₀ ∈ (done ++ [e]) ++ p' ∧
        ∀ t', TEvent.edit t' ∈ (done ++ [e]) ++ p' → t' ≤ t₀) →
        t₀ + delay = T ∧ TEvent.edit t₀ ∈ done ++ e :: p' ∧
        ∀ t', TEvent.edit t' ∈ done ++ e :: p' → t' ≤ t₀ := by
      intro t₀ ⟨h1, h2, h3⟩
      refine ⟨h1, by simpa using h2, fun t' ht' => h3 t' (by simpa using ht')⟩
    cases e with
    | edit t =>
      have hrun' : (runEvents delay (triggerAutosave delay t s)
          (p' ++ TEvent.fire T ok :: q)).isSome := by
        simpa [runEvents, stepEv] using hrun
      have hg' : GoodSched delay (done ++ [TEvent.edit t])
          (triggerAutosave delay t s) := by
        intro T' hT'
        have hT : T' = t + delay := by
          have : some (t + delay) = some T' := hT'
          exact (Option.some_inj.mp this).symm
        refine ⟨t, hT.symm, by simp, ?_⟩
        intro t' ht'
        rcases List.mem_append.mp ht' with hd | he
        · exact hcross _ hd
        · simp at he
          simp [he]
      obtain ⟨t₀, h1, h2, h3⟩ := ih q (done ++ [TEvent.edit t])
        (triggerAutosave delay t s) T ok hch' hg' hrun'
      exact ⟨t₀, hfin t₀ ⟨h1, h2, h3⟩⟩
    | fire t oke =>
      by_cases hto : s.timeoutAt = some t
      · have hrun' : (runEvents delay (save oke t s)
            (p' ++ TEvent.fire T ok :: q)).isSome := by
          simpa [runEvents, stepEv, hto] using hrun
        have hg' : GoodSched delay (done ++ [TEvent.fire t oke])
            (save oke t s) := by
          intro T' hT'
          rw [save_timeoutAt] at hT'
          exact absurd hT' (by simp)
        obtain ⟨t₀, h1, h2, h3⟩ := ih q (done ++ [TEvent.fire t oke])
          (save oke t s) T ok hch' hg' hrun'
        exact ⟨t₀, hfin t₀ ⟨h1, h2, h3⟩⟩
      · simp [runEvents, stepEv, hto] at hrun
    | tick t =>
      have hrun' : (runEvents delay (intervalTick s)
          (p' ++ TEvent.fire T ok :: q)).isSome := by
        simpa [runEvents, stepEv] using hrun
      have hg' : GoodSched delay (done ++ [TEvent.tick t])
          (intervalTick s) := by
        intro T' hT'
        rw [intervalTick_timeoutAt] at hT'
        obtain ⟨t₀, h1, h2, h3⟩ := hg T' hT'
        refine ⟨t₀, h1, List.mem_append_left _ h2, ?_⟩
        intro t' ht'
        rcases List.mem_append.mp ht' with hd | he
        · exact h3 t' hd
        · simp at he
      obtain ⟨t₀, h1, h2, h3⟩ := ih q (done ++ [TEvent.tick t])
        (intervalTick s) T ok hch' hg' hrun'
      exact ⟨t₀, hfin t₀ ⟨h1, h2, h3⟩⟩

/-- C1: autosave is a debounce-then-persist policy: triggerAutosave
schedules the save to run exactly one full delay period after its call
(with the default delay 5000 ms), and a triggerAutosave call always cancels
the pending timers first (it factors through clearTimers), so that in every
valid chronological run of edits, interval ticks and timer firings starting
from the initial hook state, a save fires at time T only when the last edit
before it happened exactly at T - delay, with no intervening edit since. -/
theorem autosave_debounce_policy (delay now T : Nat) (ok : Bool)
    (s : HookState) (evs p q : List TEvent)
    (hch : Chrono evs) (hsplit : evs = p ++ TEvent.fire T ok :: q)
    (hrun : (runEvents delay initHookState evs).isSome) :
    ((triggerAutosave delay now s).timeoutAt = some (now + delay) ∧
      triggerAutosave delay now s = triggerAutosave delay now (clearTimers s) ∧
      (triggerAutosave 5000 now s).timeoutAt = some (now + 5000)) ∧
    ∃ t₀, t₀ + delay = T ∧ TEvent.edit t₀ ∈ p ∧
      ∀ t', TEvent.edit t' ∈ p → t' ≤ t₀ := by
  subst hsplit
  have hch' : Chrono ([] ++ (p ++ TEvent.fire T ok :: q)) := by simpa using hch
  have hg : GoodSched delay [] initHookState := by
    intro T' hT'
    simp [initHookState] at hT'
  obtain ⟨t₀, h1, h2, h3⟩ :=
    runEvents_quiet delay p q [] initHookState T ok hch' hg hrun
  refine ⟨⟨rfl, by simp [triggerAutosave, clearTimers], rfl⟩, t₀, h1, ?_, ?_⟩
  · simpa using h2
  · intro t' ht'
    exact h3 t' (by simpa using ht')

/-- C1 witness: a concrete run with two edits 3000 ms apart and an interval
tick, whose save fires exactly 5000 ms after the second (last) edit. -/
theorem autosave_debounce_policy_witness :
    ((triggerAutosave 5000 42 initHookState).timeoutAt = some (42 + 5000) ∧
      triggerAutosave 5000 42 initHookState =
        triggerAutosave 5000 42 (clearTimers initHookState) ∧
      (triggerAutosave 5000 42 initHookState).timeoutAt = some (42 + 5000)) ∧
    ∃ t₀, t₀ + 5000 = 8000 ∧
      TEvent.edit t₀ ∈ [TEvent.edit 0, TEvent.tick 1000, TEvent.edit 3000] ∧
      ∀ t', TEvent.edit t' ∈ [TEvent.edit 0, TEvent.tick 1000, TEvent.edit 3000] →
        t' ≤ t₀ :=
  autosave_debounce_policy 5000 42 8000 true initHookState
    [TEvent.edit 0, TEvent.tick 1000, TEvent.edit 3000, TEvent.fire 8000 true]
    [TEvent.edit 0, TEvent.tick 1000, TEvent.edit 3000] []
    (by decide) rfl (by decide)

/-- The hook states reachable from the initial state by the operations of
useAutosave: triggerAutosave, the two halves of save, and the countdown
interval firing. -/
inductive Reachable : HookState → Prop where
  | init : Reachable initHookState
  | trigger (delay now : Nat) {s : HookState} :
      Reachable s → Reachable (triggerAutosave delay now s)
  | beginSave {s : HookState} : Reachable s → Reachable (saveBegin s)
  | endSave (ok : Bool) (now : Nat) {s : HookState} :
      Reachable s → Reachable (saveEnd ok now s)
  | tick {s : HookState} : Reachable s → Reachable (intervalTick s)

/-- C4: the autosave status is a four-state machine: in every reachable
hook state the status is one of exactly idle, typing, saving and saved;
triggerAutosave moves it to typing with the countdown Math.ceil(delay/1000);
the scheduled save moves it to saving and then to saved on success or back
to idle on failure; and no operation produces any other status string. -/
theorem autosave_status_machine :
    (∀ s, Reachable s →
      s.status.status = "idle" ∨ s.status.status = "typing" ∨
      s.status.status = "saving" ∨ s.status.status = "saved") ∧
    (∀ delay now s, (triggerAutosave delay now s).status.status = "typing" ∧
      (triggerAutosave delay now s).status.countdown = cdInit delay) ∧
    (∀ s, (saveBegin s).status.status = "saving") ∧
    (∀ now s, (saveEnd true now s).status.status = "saved") ∧
    (∀ now s, (saveEnd false now s).status.status = "idle") := by
  refine ⟨?_, fun delay now s => ⟨rfl, rfl⟩, fun s => rfl,
    fun now s => rfl, fun now s => rfl⟩
  intro s h
  induction h with
  | init => exact Or.inl rfl
  | trigger delay now h ih => exact Or.inr (Or.inl rfl)
  | beginSave h ih => exact Or.inr (Or.inr (Or.inl rfl))
  | endSave ok now h ih =>
    cases ok
    · exact Or.inl rfl
    · exact Or.inr (Or.inr (Or.inr rfl))
  | tick h ih => rw [intervalTick_status]; exact ih

/-- C4 witness: the four-state invariant applied at the initial state. -/
theorem autosave_status_machine_witness :
    initHookState.status.status = "idle" ∨
    initHookState.status.status = "typing" ∨
    initHookState.status.status = "saving" ∨
    initHookState.status.status = "saved" :=
  autosave_status_machine.1 initHookState Reachable.init

/-- C5: failure recovery is only catch-and-log: when the onSave promise
inside save rejects, save returns the status to idle with countdown 0,
leaves lastSaved unchanged, leaves pendingChangesRef unchanged (so an edit
is still recorded as unsaved), and both timers are cleared with no retry
scheduled. -/
theorem save_failure_recovery (s : HookState) (now : Nat) :
    (save false now s).status.status = "idle" ∧
    (save false now s).status.countdown = 0 ∧
    (save false now s).status.lastSaved = s.status.lastSaved ∧
    (save false now s).pendingChanges = s.pendingChanges ∧
    (save false now s).timeoutAt = none ∧
    (save false now s).intervalRem = none :=
  ⟨rfl, rfl, rfl, rfl, rfl, rfl⟩

/-- loadImage as resolveImageUrls calls it, keyed by the JSON value found
at attrs.imageId. saveImage only ever creates string keys, so a non-string
key matches no record in any store this program produces. -/
def loadImageKey (mkUrl : Blob → String) (st : StorageState) (k : JsValue) :
    Option String :=
  match k with
  | .str s => loadImage mkUrl st s
  | _ => none

/-- The image-substitution step of resolveImageUrls (page.tsx 41-52): for a
node whose type is the string image and whose attrs?.imageId is truthy,
look the blob up; when a truthy object URL comes back, the step yields
{...content, attrs: {...content.attrs, src: url}}. In every other case the
step does not apply (none) and control falls through to the content walk. -/
def imageSubst (mkUrl : Blob → String) (st : StorageState) (c : JsValue) :
    Option JsValue :=
  match objGet c "type" with
  | some (.str t) =>
    if t == "image" then
      match objGet2 c "attrs" "imageId" with
      | some idv =>
        if truthy idv then
          match loadImageKey mkUrl st idv with
          | some url =>
            if truthy (.str url) then
              some (jsSpreadSet c "attrs"
                (jsSpreadSet ((objGet c "attrs").getD .null) "src" (.str url)))
            else none
          | none => none
        else none
      | none => none
    else none
  | _ => none

lemma objGet_obj {c : JsValue} {k : String} {v : JsValue}
    (h : objGet c k = some v) : ∃ fields, c = JsValue.obj fields := by
  cases c <;> first | exact ⟨_, rfl⟩ | simp [objGet] at h

lemma truthy_of_objGet {c : JsValue} {k : String} {v : JsValue}
    (h : objGet c k = some v) : truthy c = true := by
  obtain ⟨fields, rfl⟩ := objGet_obj h
  rfl

lemma find?_map_subst (k : String) (v : JsValue) :
    ∀ (fields : List (String × JsValue)),
      fields.any (fun e => e.1 == k) = true →
      (fields.map (fun e => if e.1 == k then (k, v) else e)).find?
        (fun e => e.1 == k) = some (k, v)
  | [], h => by simp at h
  | e :: t, h => by
    by_cases he : (e.1 == k) = true
    · rw [List.map_cons, if_pos he, List.find?_cons_of_pos _ (by simp)]
    · have he' : (e.1 == k) = false := by simpa using he
      have ht : t.any (fun e => e.1 == k) = true := by
        simpa [List.any_cons, he'] using h
      rw [List.map_cons, if_neg (by simp [he']),
        List.find?_cons_of_neg _ (by simp [he'])]
      exact find?_map_subst k v t ht

lemma find?_append_new (k : String) (v : JsValue) :
    ∀ (fields : List (String × JsValue)),
      fields.any (fun e => e.1 == k) = false →
      (fields ++ [(k, v)]).find? (fun e => e.1 == k) = some (k, v)
  | [], _ => by simp [List.find?]
  | e :: t, h => by
    rw [List.any_cons, Bool.or_eq_false_iff] at h
    simp [List.find?, h.1, find?_append_new k v t h.2]

lemma objGet_jsSpreadSet_self (c : JsValue) (k : String) (v : JsValue) :
    objGet (jsSpreadSet c k v) k = some v := by
  cases c with
  | obj fields =>
    show Option.map (fun e => e.2)
      ((setField fields k v).find? (fun e => e.1 == k)) = some v
    unfold setField
    cases hany : fields.any (fun e => e.1 == k) with
    | true => rw [if_pos rfl, find?_map_subst k v fields hany]; rfl
    | false =>
      rw [if_neg (by simp), find?_append_new k v fields hany]; rfl
  | null => simp [jsSpreadSet, objGet, List.find?]
  | bool b => simp [jsSpreadSet, objGet, List.find?]
  | num n => simp [jsSpreadSet, objGet, List.find?]
  | str s => simp [jsSpreadSet, objGet, List.find?]
  | arr l => simp [jsSpreadSet, objGet, List.find?]

lemma sizeOf_objGet {c : JsValue} {k : String} {v : JsValue}
    (h : objGet c k = some v) : sizeOf v < sizeOf c := by
  obtain ⟨fields, rfl⟩ := objGet_obj h
  simp only [objGet, Option.map_eq_some'] at h
  obtain ⟨⟨k', v'⟩, hf, hv⟩ := h
  have hmem := List.mem_of_find?_eq_some hf
  have h1 : sizeOf (k', v') < sizeOf fields := List.sizeOf_lt_of_mem hmem
  have h2 : sizeOf (JsValue.obj fields) = 1 + sizeOf fields := by simp
  have h3 : sizeOf (k', v') = 1 + sizeOf k' + sizeOf v' := rfl
  simp only at hv
  subst hv
  omega

lemma sizeOf_content_child {c : JsValue} {l : List JsValue} {x : JsValue}
    (h : objGet c "content" = some (JsValue.arr l)) (hx : x ∈ l) :
    sizeOf x < sizeOf c := by
  have h1 : sizeOf (JsValue.arr l) < sizeOf c := sizeOf_objGet h
  have h2 : sizeOf x < sizeOf l := List.sizeOf_lt_of_mem hx
  have h3 : sizeOf (JsValue.arr l) = 1 + sizeOf l := by simp
  omega

/-- resolveImageUrls (page.tsx 38-65): a falsy value is returned as is; the
image-substitution step returns immediately when it applies; otherwise a
node whose content property is an array is rebuilt as
{...content, content: resolvedChildren} with every child resolved
recursively; every other value is returned unchanged. -/
def resolveImageUrls (mkUrl : Blob → String) (st : StorageState)
    (c : JsValue) : JsValue :=
  if truthy c = false then c
  else
    match imageSubst mkUrl st c with
    | some r => r
    | none =>
      match hco : objGet c "content" with
      | some (.arr children) =>
        jsSpreadSet c "content"
          (.arr (children.attach.map (fun x => resolveImageUrls mkUrl st x.1)))
      | _ => c
termination_by sizeOf c
decreasing_by
  exact sizeOf_content_child hco x.2

lemma imageSubst_truthy {mkUrl : Blob → String} {st : StorageState}
    {c r : JsValue} (hs : imageSubst mkUrl st c = some r) :
    truthy c = true := by
  unfold imageSubst at hs
  cases hty : objGet c "type" with
  | none => rw [hty] at hs; exact absurd hs (by simp)
  | some v => exact truthy_of_objGet hty

lemma resolveImageUrls_subst {mkUrl : Blob → String} {st : StorageState}
    {c r : JsValue} (hs : imageSubst mkUrl st c = some r) :
    resolveImageUrls mkUrl st c = r := by
  rw [resolveImageUrls.eq_def]
  rw [if_neg (by simp [imageSubst_truthy hs])]
  rw [hs]

lemma resolveImageUrls_content {mkUrl : Blob → String} {st : StorageState}
    {c : JsValue} {l : List JsValue} (ht : truthy c = true)
    (hs : imageSubst mkUrl st c = none)
    (hc : objGet c "content" = some (JsValue.arr l)) :
    resolveImageUrls mkUrl st c =
      jsSpreadSet c "content" (.arr (l.map (resolveImageUrls mkUrl st))) := by
  rw [resolveImageUrls.eq_def]
  rw [if_neg (by simp [ht])]
  split
  · rename_i r hr
    rw [hs] at hr
    exact absurd hr (by simp)
  · split
    · rename_i children heq
      rw [hc] at heq
      have hlc : l = children := by
        injection heq with h1
        injection h1 with h2
      subst hlc
      rw [List.attach_map_val]
    · rename_i hnone
      exact absurd hc (hnone l)

lemma resolveImageUrls_plain {mkUrl : Blob → String} {st : StorageState}
    {c : JsValue} (hs : imageSubst mkUrl st c = none)
    (hnc : ∀ l, objGet c "content" ≠ some (JsValue.arr l)) :
    resolveImageUrls mkUrl st c = c := by
  rw [resolveImageUrls.eq_def]
  by_cases ht : truthy c = false
  · rw [if_pos ht]
  · rw [if_neg ht]
    split
    · rename_i r hr
      rw [hs] at hr
      exact absurd hr (by simp)
    · split
      · rename_i children heq
        exact absurd heq (hnc children)
      · rfl

/-- The node of a document JSON reached by descending, at each step, into
the i-th element of the content array, exactly the positions the recursive
walk of resolveImageUrls visits. -/
def nodeAt : JsValue → List Nat → Option JsValue
  | c, [] => some c
  | c, i :: p =>
    match objGet c "content" with
    | some (.arr l) =>
      match l.get? i with
      | some ch => nodeAt ch p
      | none => none
    | _ => none

lemma nodeAt_resolve (mkUrl : Blob → String) (st : StorageState) :
    ∀ (p : List Nat) (doc n r : JsValue),
      nodeAt doc p = some n →
      (∀ q rest m, p = q ++ rest → rest ≠ [] → nodeAt doc q = some m →
        imageSubst mkUrl st m = none) →
      imageSubst mkUrl st n = some r →
      nodeAt (resolveImageUrls mkUrl st doc) p = some r := by
  intro p
  induction p with
  | nil =>
    intro doc n r hn hpre hs
    have hdoc : doc = n := by simpa [nodeAt] using hn
    subst hdoc
    rw [resolveImageUrls_subst hs]
    rfl
  | cons i p' ih =>
    intro doc n r hn hpre hs
    rw [nodeAt] at hn
    cases hco : objGet doc "content" with
    | none => rw [hco] at hn; simp only [] at hn; exact absurd hn (by simp)
    | some v =>
      cases v with
      | arr l =>
        rw [hco] at hn
        simp only [] at hn
        cases hch : l.get? i with
        | none =>
          rw [hch] at hn; simp only [] at hn; exact absurd hn (by simp)
        | some ch =>
          rw [hch] at hn
          simp only [] at hn
          have hsub0 : imageSubst mkUrl st doc = none := by
            apply hpre [] (i :: p') doc rfl (by simp) rfl
          have ht : truthy doc = true := truthy_of_objGet hco
          rw [resolveImageUrls_content ht hsub0 hco]
          have hpre' : ∀ q rest m, p' = q ++ rest → rest ≠ [] →
              nodeAt ch q = some m → imageSubst mkUrl st m = none := by
            intro q rest m hq hrest hm
            apply hpre (i :: q) rest m (by rw [hq]; rfl) hrest
            rw [nodeAt, hco]
            simp only []
            rw [hch]
            simp only []
            exact hm
          have hih := ih ch n r hn hpre' hs
          rw [nodeAt, objGet_jsSpreadSet_self]
          simp only []
          rw [List.get?_map, hch, Option.map_some']
          simp only []
          exact hih
      | null =>
        rw [hco] at hn; simp only [] at hn; exact absurd hn (by simp)
      | bool b =>
        rw [hco] at hn; simp only [] at hn; exact absurd hn (by simp)
      | num m =>
        rw [hco] at hn; simp only [] at hn; exact absurd hn (by simp)
      | str s =>
        rw [hco] at hn; simp only [] at hn; exact absurd hn (by simp)
      | obj fields =>
        rw [hco] at hn; simp only [] at hn; exact absurd hn (by simp)

/-- C2 (amended): resolveImageUrls is a recursive walk of the document JSON
that descends through the content arrays of the nodes to which the image
substitution does not apply; every node reached this way of type image
whose truthy attrs.imageId has a stored blob is returned with attrs.src set
to the object URL returned by loadImage; children of every such
non-substituted node with a content array are resolved recursively, but a
substituted image node is returned immediately, so its own children, if
any, are not resolved further. -/
theorem resolveImageUrls_resolves (mkUrl : Blob → String) (st : StorageState)
    (doc n attrs idv : JsValue) (url : String) (p : List Nat)
    (hn : nodeAt doc p = some n)
    (hpre : ∀ q rest m, p = q ++ rest → rest ≠ [] → nodeAt doc q = some m →
      imageSubst mkUrl st m = none)
    (hty : objGet n "type" = some (.str "image"))
    (hattrs : objGet n "attrs" = some attrs)
    (hid : objGet attrs "imageId" = some idv)
    (htr : truthy idv = true)
    (hurl : loadImageKey mkUrl st idv = some url)
    (hne : url ≠ "") :
    nodeAt (resolveImageUrls mkUrl st doc) p =
      some (jsSpreadSet n "attrs" (jsSpreadSet attrs "src" (.str url))) := by
  apply nodeAt_resolve mkUrl st p doc n _ hn hpre
  have hu : truthy (JsValue.str url) = true := by simp [truthy, hne]
  unfold imageSubst objGet2
  rw [hty]
  simp [hattrs, hid, htr, hurl, hu]

/-- C2 witness: a two-node document whose root content array holds a stored
image node; the walk sets its attrs.src to the object URL of the blob. -/
theorem resolveImageUrls_resolves_witness :
    nodeAt (resolveImageUrls (fun _ => "blob:wit")
      (⟨[], [("i1", ⟨"i1", ⟨[9]⟩, 0⟩)]⟩ : StorageState)
      (JsValue.obj [("type", JsValue.str "doc"),
        ("content", JsValue.arr [JsValue.obj [("type", JsValue.str "image"),
          ("attrs", JsValue.obj [("imageId", JsValue.str "i1")])]])])) [0] =
    some (jsSpreadSet
      (JsValue.obj [("type", JsValue.str "image"),
        ("attrs", JsValue.obj [("imageId", JsValue.str "i1")])])
      "attrs"
      (jsSpreadSet (JsValue.obj [("imageId", JsValue.str "i1")]) "src"
        (JsValue.str "blob:wit"))) :=
  resolveImageUrls_resolves (fun _ => "blob:wit")
    (⟨[], [("i1", ⟨"i1", ⟨[9]⟩, 0⟩)]⟩ : StorageState)
    (JsValue.obj [("type", JsValue.str "doc"),
      ("content", JsValue.arr [JsValue.obj [("type", JsValue.str "image"),
        ("attrs", JsValue.obj [("imageId", JsValue.str "i1")])]])])
    (JsValue.obj [("type", JsValue.str "image"),
      ("attrs", JsValue.obj [("imageId", JsValue.str "i1")])])
    (JsValue.obj [("imageId", JsValue.str "i1")])
    (JsValue.str "i1") "blob:wit" [0]
    rfl
    (by
      intro q rest m hq hr hm
      cases q with
      | nil =>
        have hmd : m = JsValue.obj [("type", JsValue.str "doc"),
            ("content", JsValue.arr [JsValue.obj [("type", JsValue.str "image"),
              ("attrs", JsValue.obj [("imageId", JsValue.str "i1")])]])] := by
          simpa [nodeAt] using hm.symm
        subst hmd
        rfl
      | cons a q' =>
        have h1 : ([] : List Nat) = q' ++ rest := by
          simpa using congrArg List.tail hq
        exact absurd (List.append_eq_nil.mp h1.symm).2 hr)
    rfl rfl rfl (by decide) rfl (by decide)

/-- The store for the C2 counterexample: blobs stored for ids i1 and i2. -/
def cexStore : StorageState :=
  ⟨[], [("i1", ⟨"i1", ⟨[1]⟩, 0⟩), ("i2", ⟨"i2", ⟨[2]⟩, 0⟩)]⟩

/-- C2 counterexample inner node: a stored image node with id i2 and no
src attribute. -/
def cexInner : JsValue :=
  .obj [("type", .str "image"), ("attrs", .obj [("imageId", .str "i2")])]

/-- C2 counterexample root: a stored image node with id i1 whose content
array holds cexInner. -/
def cexOuter : JsValue :=
  .obj [("type", .str "image"), ("attrs", .obj [("imageId", .str "i1")]),
    ("content", .arr [cexInner])]

/-- The object URL allocator for the C2 counterexample. -/
def cexUrl : Blob → String := fun _ => "blob:cex"

/-- C2 counterexample: on a document whose root is an image node with a
stored imageId and a content array holding a second stored image node, the
substitution applies to the root and returns immediately, so the child,
although an image node with a stored blob sitting in a content array, is
returned without any src set: the claim that resolveImageUrls substitutes
src on every stored image node and resolves the children of every node
with a content array is false on this input. -/
theorem resolveImageUrls_counterexample :
    objGet cexInner "type" = some (JsValue.str "image") ∧
    loadImageKey cexUrl cexStore (JsValue.str "i2") = some "blob:cex" ∧
    objGet cexOuter "content" = some (JsValue.arr [cexInner]) ∧
    nodeAt (resolveImageUrls cexUrl cexStore cexOuter) [0] = some cexInner ∧
    objGet2 cexInner "attrs" "src" = none := by
  have hres : resolveImageUrls cexUrl cexStore cexOuter =
      jsSpreadSet cexOuter "attrs"
        (jsSpreadSet (JsValue.obj [("imageId", JsValue.str "i1")]) "src"
          (JsValue.str "blob:cex")) :=
    resolveImageUrls_subst rfl
  refine ⟨rfl, rfl, rfl, ?_, rfl⟩
  rw [hres]
  rfl

/-- C8: the referential invariant is never verified or repaired: for an
image node whose imageId has no stored blob, loadImage returns null without
raising any error, and resolveImageUrls returns the node unchanged, with no
src substitution (an image node has no content array, so the recursive
branch does not apply either); the pass only reads the store and modifies
neither the document nor the image store. -/
theorem missing_blob_unrepaired (mkUrl : Blob → String) (st : StorageState)
    (c attrs : JsValue) (imageId : String)
    (hty : objGet c "type" = some (JsValue.str "image"))
    (hattrs : objGet c "attrs" = some attrs)
    (hid : objGet attrs "imageId" = some (JsValue.str imageId))
    (hmiss : storeGet st.images imageId = none)
    (hnc : objGet c "content" = none) :
    loadImage mkUrl st imageId = none ∧
    loadImageE mkUrl st imageId none = Except.ok none ∧
    resolveImageUrls mkUrl st c = c := by
  have hload : loadImage mkUrl st imageId = none := by
    simp [loadImage, hmiss]
  have hkey : loadImageKey mkUrl st (JsValue.str imageId) = none := by
    simp [loadImageKey, hload]
  have hsub : imageSubst mkUrl st c = none := by
    unfold imageSubst objGet2
    rw [hty]
    by_cases htr : truthy (JsValue.str imageId) = true
    · simp [hattrs, hid, htr, hkey]
    · simp [hattrs, hid, htr]
  refine ⟨hload, by simp [loadImageE, hload], ?_⟩
  apply resolveImageUrls_plain hsub
  intro l hl
  rw [hnc] at hl
  exact absurd hl (by simp)

/-- C8 witness: a concrete image node whose imageId is absent from an empty
store is returned unchanged and loadImage yields null with no error. -/
theorem missing_blob_unrepaired_witness :
    loadImage (fun _ => "blob:w8") initialStorage "img-0-zzz" = none ∧
    loadImageE (fun _ => "blob:w8") initialStorage "img-0-zzz" none =
      Except.ok none ∧
    resolveImageUrls (fun _ => "blob:w8") initialStorage
      (JsValue.obj [("type", JsValue.str "image"),
        ("attrs", JsValue.obj [("imageId", JsValue.str "img-0-zzz")])]) =
    JsValue.obj [("type", JsValue.str "image"),
      ("attrs", JsValue.obj [("imageId", JsValue.str "img-0-zzz")])] :=
  missing_blob_unrepaired (fun _ => "blob:w8") initialStorage
    (JsValue.obj [("type", JsValue.str "image"),
      ("attrs", JsValue.obj [("imageId", JsValue.str "img-0-zzz")])])
    (JsValue.obj [("imageId", JsValue.str "img-0-zzz")])
    "img-0-zzz" rfl rfl rfl rfl rfl

/-- Prefix test on character lists. -/
def startsList : List Char → List Char → Bool
  | [], _ => true
  | _ :: _, [] => false
  | p :: ps, c :: cs => p == c && startsList ps cs

/-- Substring occurrence test on character lists. -/
def containsList (pat : List Char) : List Char → Bool
  | [] => startsList pat []
  | c :: r => startsList pat (c :: r) || containsList pat r

/-- The item.type.indexOf("image") !== -1 test of handleImagePaste and
handleImageDrop. -/
def isImageMime (t : String) : Bool :=
  containsList "image".data t.data

/-- handleImagePaste (custom-image.ts 194-216): scan the clipboard items in
order for the first image-typed item carrying a file, store its blob with
saveImage, resolve the fresh id with loadImage and return imageId with the
src. Clipboard items are (mime type, optional file) pairs; this models the
success path, on which the freshly stored blob always resolves, so the
catch branch of the loop is not taken. -/
def handleImagePaste (mkUrl : Blob → String) (st : StorageState)
    (items : List (String × Option Blob)) (now₁ now₂ : Nat) (rand : String) :
    Option (StorageState × String × String) :=
  match items.find? (fun it => isImageMime it.1 && it.2.isSome) with
  | some it =>
    match it.2 with
    | some blob =>
      let r := saveImage st blob now₁ now₂ rand
      match loadImage mkUrl r.1 r.2 with
      | some src => some (r.1, r.2, src)
      | none => none
    | none => none
  | none => none

/-- The image node the editor inserts for a pasted or dropped image
(Editor.tsx handlePaste and handleDrop, custom-image.ts setImage):
insertContent {type: image, attrs: {src, imageId}}. -/
def pastedImageNode (src imageId : String) : JsValue :=
  .obj [("type", .str "image"),
    ("attrs", .obj [("src", .str src), ("imageId", .str imageId)])]

/-- renderHTML of the imageId attribute (custom-image.ts 151-162): a falsy
imageId contributes no attribute; otherwise it is serialized to the HTML
attribute data-image-id. -/
def renderImageIdAttr (imageId : JsValue) : List (String × JsValue) :=
  if truthy imageId = false then [] else [("data-image-id", imageId)]

lemma genImageId_ne_empty (now : Nat) (rand : String) :
    genImageId now rand ≠ "" := by
  intro h
  have hl := congrArg String.length h
  simp [genImageId, String.length_append] at hl
  exact absurd hl.1.1.1 (by decide)

/-- C7: an image pasted into the editor is persisted by reference: its blob
goes to the images store under a fresh generated identifier, the documents
store is untouched, the node inserted into the document JSON carries that
identifier in attrs.imageId, which serializes to HTML as data-image-id,
next to an object URL string in attrs.src; the node is built from those two
strings alone and the binary data is recoverable only through the
identifier (loadImage), so the document references the stored image only by
identifier and never embeds the binary image data inline. -/
theorem pasted_image_by_reference (mkUrl : Blob → String) (st : StorageState)
    (b : Blob) (now₁ now₂ : Nat) (rand mime : String)
    (hmime : isImageMime mime = true) :
    ∃ st' imageId src,
      handleImagePaste mkUrl st [(mime, some b)] now₁ now₂ rand =
        some (st', imageId, src) ∧
      imageId = genImageId now₁ rand ∧
      src = mkUrl b ∧
      (storeGet st'.images imageId).map (fun rec => rec.blob) = some b ∧
      st'.documents = st.documents ∧
      pastedImageNode src imageId =
        JsValue.obj [("type", JsValue.str "image"),
          ("attrs", JsValue.obj [("src", JsValue.str src),
            ("imageId", JsValue.str imageId)])] ∧
      objGet2 (pastedImageNode src imageId) "attrs" "imageId" =
        some (JsValue.str imageId) ∧
      renderImageIdAttr (JsValue.str imageId) =
        [("data-image-id", JsValue.str imageId)] ∧
      loadImage mkUrl st' imageId = some (mkUrl b) := by
  have hload : loadImage mkUrl (saveImage st b now₁ now₂ rand).1
      (saveImage st b now₁ now₂ rand).2 = some (mkUrl b) := by
    simp [loadImage, saveImage, storeGet_storePut_self]
  refine ⟨(saveImage st b now₁ now₂ rand).1, genImageId now₁ rand, mkUrl b,
    ?_, rfl, rfl, ?_, rfl, rfl, rfl, ?_, hload⟩
  · unfold handleImagePaste
    rw [List.find?_cons_of_pos _ (by simp [hmime])]
    simp only []
    rw [hload]
    rfl
  · simp [saveImage, storeGet_storePut_self]
  · rw [renderImageIdAttr,
      if_neg (by simp [truthy, genImageId_ne_empty now₁ rand])]

/-- C7 witness: pasting a concrete one-byte image blob. -/
theorem pasted_image_by_reference_witness :
    ∃ st' imageId src,
      handleImagePaste (fun _ => "blob:w7") initialStorage
        [("image/png", some ⟨[3]⟩)] 1 2 "abc123def" =
        some (st', imageId, src) ∧
      imageId = genImageId 1 "abc123def" ∧
      src = (fun _ : Blob => "blob:w7") ⟨[3]⟩ ∧
      (storeGet st'.images imageId).map (fun rec => rec.blob) =
        some (⟨[3]⟩ : Blob) ∧
      st'.documents = initialStorage.documents ∧
      pastedImageNode src imageId =
        JsValue.obj [("type", JsValue.str "image"),
          ("attrs", JsValue.obj [("src", JsValue.str src),
            ("imageId", JsValue.str imageId)])] ∧
      objGet2 (pastedImageNode src imageId) "attrs" "imageId" =
        some (JsValue.str imageId) ∧
      renderImageIdAttr (JsValue.str imageId) =
        [("data-image-id", JsValue.str imageId)] ∧
      loadImage (fun _ => "blob:w7") st' imageId =
        some ((fun _ : Blob => "blob:w7") ⟨[3]⟩) :=
  pasted_image_by_reference (fun _ => "blob:w7") initialStorage
    ⟨[3]⟩ 1 2 "abc123def" "image/png" (by decide)
